import Mathlib

/-!
Shallow embedding of the fioc dependency-injection container
(`src/core/token.ts`, the immer-based `buildDIContainer` with metadata
indexes and transient/singleton/scoped factories, together with the
object-based `createDIToken` of the token module).

JS object identity is modelled by a numeric tag `tid`: every token object
created at runtime receives a unique `tid`, so `a === b` on tokens is
`a.tid = b.tid`.  Machine state that is mutable in JS (the allocation of
fresh objects by factory bodies and the closure cell created by
`defineSingleton`) is threaded explicitly through a `World` record.
Resolution recursion carries a `fuel` argument modelling the host call
stack; exhausting it is the stack-overflow failure.
-/

namespace Fioc

/-- A token as it occurs inside another token's metadata
(`implements` / `generics` entries).  Only its identity (`tid`) and its
string `key` are ever consulted by the container code. -/
structure TokenRef where
  tid : Nat
  key : String
deriving DecidableEq, Repr

/-- Metadata payload `DITokenMetadata` from `token.ts`: optional `implements` and
`generics` token lists. -/
structure TokenMeta where
  implementsL : Option (List TokenRef)
  generics : Option (List TokenRef)
deriving DecidableEq, Repr

/-- Token type `DIToken` from `token.ts` (`createDIToken<T>().as(key, metadata)`):
a plain object `\x7b key, metadata \x7d`.  `tid` models the JS object
identity of this token (fresh per `.as` call). -/
structure DIToken where
  tid : Nat
  key : String
  metadata : Option TokenMeta
deriving DecidableEq, Repr

/-- The reserved self token
`DIContainer = createDIToken<DIContainer>().as("DIContainer")`.
Its object identity is fixed as `tid = 0`; no other runtime token object
shares this identity. -/
def DIContainerTok : DIToken := { tid := 0, key := "DIContainer", metadata := none }

/-- JS `a === b` on token objects: object identity. -/
def tokenIs (a b : DIToken) : Bool := a.tid == b.tid

/-- Runtime values held by / produced through the container.
`base n` is an opaque value registered by the caller; `obj allocId fid args`
is the object freshly allocated by the `allocId`-th allocation, performed by
the factory body with code `fid` applied to resolved arguments `args`
(distinct allocations yield reference-distinct objects, hence the tag);
`containerRef` stands for the container object itself (result of resolving
the self token); `objLit sc` stands for a malformed factory-registration
object returned as a plain value (it has no `dependencies` property). -/
inductive Value where
  | base (n : Nat)
  | obj (allocId : Nat) (fid : Nat) (args : List Value)
  | containerRef
  | objLit (scope : Option String)

/-- A factory function as stored in the container.
`make fid` is a user factory body with code id `fid`: each invocation
allocates and returns a fresh object.  `memo cell fid` is
`defineSingleton(fn)` applied to such a body: a closure holding the mutable
`instance` cell identified by `cell` (`instance ??= fn(...args)`). -/
inductive FactoryFn where
  | make (fid : Nat)
  | memo (cell : Nat) (fid : Nat)
deriving DecidableEq, Repr

/-- The mutable machine state outside the container: the fresh-object
allocation counter and the `defineSingleton` closure cells. -/
structure World where
  nextId : Nat
  cells : List (Nat × Value)

/-- Invoking a stored factory function on already-resolved arguments.
`make` allocates a fresh object; `memo` is `defineSingleton`'s wrapper:
return the cell content if set, otherwise run the body once and fill the
cell (first-call-wins). -/
def invokeFn : FactoryFn → List Value → World → Value × World
  | .make fid, args, w =>
    (Value.obj w.nextId fid args, { w with nextId := w.nextId + 1 })
  | .memo cell fid, args, w =>
    match List.lookup cell w.cells with
    | some v => (v, w)
    | none =>
      let v := Value.obj w.nextId fid args
      (v, { nextId := w.nextId + 1, cells := (cell, v) :: w.cells })

/-- An entry of `containerState.values`.
`plain v`: a value stored by `register` (no `dependencies` property).
`fact deps f sc`: the object `\x7b ...descriptor, scope \x7d` stored by
`registerFactory`; `f = none` models a descriptor object whose `factory`
property is missing or not callable.
`factNoDeps sc`: an object stored by `registerFactory` that has no
`dependencies` property (the resolver then returns it as a plain value). -/
inductive StoredEntry where
  | plain (v : Value)
  | fact (dependencies : List DIToken) (factory : Option FactoryFn) (scope : Option String)
  | factNoDeps (scope : Option String)

/-- The `scope` property of a stored entry (`undefined` on plain values). -/
def entryScope : StoredEntry → Option String
  | .plain _ => none
  | .fact _ _ sc => sc
  | .factNoDeps sc => sc

/-- Error taxonomy; constructors carry what the thrown `Error` message
interpolates. -/
inductive DIError where
  | tokenNotFound (key : String)
  | reservedToken
  | invalidFactory (got : String)
  | typeError (msg : String)
  | stackOverflow
deriving DecidableEq, Repr

/-- The message of each thrown `Error`, as built in `token.ts`. -/
def errMessage : DIError → String
  | .tokenNotFound key => "Could not Resolve: Token \"" ++ key ++ "\" not found"
  | .reservedToken => "DIContainer cannot be registered"
  | .invalidFactory got => "Factory must be an object. Got " ++ got ++ " instead"
  | .typeError m => m
  | .stackOverflow => "Maximum call stack size exceeded"

/-- JS object property assignment `m[k] = v` on a string-keyed record:
replace in place if the key exists, else append. -/
def setKey {α : Type} : List (String × α) → String → α → List (String × α)
  | [], k, v => [(k, v)]
  | (k', v') :: rest, k, v =>
    if k' == k then (k, v) :: rest else (k', v') :: setKey rest k v

/-- The index update performed by `register`/`registerFactory` for one
metadata token: if no list exists under `key` store `[token]`, else push
`token` at the end. -/
def pushIndex (m : List (String × List DIToken)) (key : String) (token : DIToken) :
    List (String × List DIToken) :=
  match List.lookup key m with
  | none => setKey m key [token]
  | some l => setKey m key (l ++ [token])

/-- State type `DIContainerState`: `values`, and the two metadata indexes
`implementations` and `references`, all string-keyed records. -/
structure ContainerState where
  values : List (String × StoredEntry)
  implementations : List (String × List DIToken)
  references : List (String × List DIToken)

/-- The default state of `buildDIContainer()`. -/
def emptyState : ContainerState := { values := [], implementations := [], references := [] }

/-- The `metadata?.implements?.forEach(...)` loop: push the registered token into
the `implementations` index under each implemented token's key. -/
def applyImplements (m : List (String × List DIToken)) (token : DIToken) :
    List (String × List DIToken) :=
  match token.metadata with
  | none => m
  | some md =>
    match md.implementsL with
    | none => m
    | some l => l.foldl (fun acc r => pushIndex acc r.key token) m

/-- The `metadata?.generics?.forEach(...)` loop: push the registered token into the
`references` index under each generic token's key. -/
def applyGenerics (m : List (String × List DIToken)) (token : DIToken) :
    List (String × List DIToken) :=
  match token.metadata with
  | none => m
  | some md =>
    match md.generics with
    | none => m
    | some l => l.foldl (fun acc r => pushIndex acc r.key token) m

/-- Operation `register(token, value)` of `buildDIContainer`: guard against the self
token (by object identity), then store the value under `token.key` and
update both metadata indexes. -/
def register (st : ContainerState) (token : DIToken) (value : Value) :
    Except DIError ContainerState :=
  if tokenIs token DIContainerTok then .error .reservedToken
  else
    .ok { values := setKey st.values token.key (.plain value)
          implementations := applyImplements st.implementations token
          references := applyGenerics st.references token }

/-- The argument passed to `registerFactory`, classified by its JS shape.
`desc deps fid` is a well-formed `\x7b dependencies, factory \x7d` object
whose factory body has code id `fid`; `objMalformed deps?` is a non-null
object whose `factory` property is missing; `nullVal` is `null` (which has
`typeof ... === "object"`); `nonObject s` is any value whose `typeof` is
not `"object"`, with `s` its string interpolation. -/
inductive FactoryInput where
  | desc (dependencies : List DIToken) (fid : Nat)
  | objMalformed (dependencies : Option (List DIToken))
  | nullVal
  | nonObject (s : String)
deriving DecidableEq, Repr

/-- The JS test `typeof value === "object"` for a `FactoryInput`. -/
def FactoryInput.typeofIsObject : FactoryInput → Bool
  | .nonObject _ => false
  | _ => true

/-- The `${value}` interpolation used in the `InvalidFactoryError` message. -/
def FactoryInput.reprStr : FactoryInput → String
  | .nonObject s => s
  | .nullVal => "null"
  | _ => "[object Object]"

/-- The wrap `defineSingleton(value.factory)` dereferences `value.factory`, which
throws a `TypeError` when `value` is `null` and the requested scope is
`"singleton"`. -/
def FactoryInput.isNullSingleton : FactoryInput → Option String → Bool
  | .nullVal, some s => s == "singleton"
  | _, _ => false

/-- The entry `\x7b ...val, scope \x7d` stored by `registerFactory`
for an object-typed input; when `scope === "singleton"` a well-formed
factory body is wrapped by `defineSingleton`, whose fresh closure cell is
`cell`.  A descriptor whose `factory` is missing stores no callable
(calling it at resolve time raises a `TypeError`); an object without a
`dependencies` property is stored as `factNoDeps`. -/
def entryFor : FactoryInput → Option String → Nat → StoredEntry
  | .desc deps fid, scope, cell =>
    .fact deps (some (if scope = some "singleton" then .memo cell fid else .make fid)) scope
  | .objMalformed (some deps), scope, _ => .fact deps none scope
  | .objMalformed none, scope, _ => .factNoDeps scope
  | .nullVal, scope, _ => .factNoDeps scope
  | .nonObject _, scope, _ => .factNoDeps scope

/-- Operation `registerFactory(token, value, scope)` of `buildDIContainer`:
reject a non-object payload (`InvalidFactoryError`), then the self token,
then store `\x7b ...val, scope \x7d` under `token.key` and update both
metadata indexes.  `cell` is the identity of the closure cell allocated by
`defineSingleton` when the scope is `"singleton"`. -/
def registerFactory (st : ContainerState) (token : DIToken) (input : FactoryInput)
    (scope : Option String) (cell : Nat) : Except DIError ContainerState :=
  if input.typeofIsObject = false then .error (.invalidFactory input.reprStr)
  else if tokenIs token DIContainerTok then .error .reservedToken
  else if input.isNullSingleton scope then
    .error (.typeError "Cannot read properties of null (reading factory)")
  else
    .ok { values := setKey st.values token.key (entryFor input scope cell)
          implementations := applyImplements st.implementations token
          references := applyGenerics st.references token }

/-- Operation `merge(stateToMerge)` of `buildDIContainer`: the new state is
`\x7b ...containerState, ...stateToMerge \x7d`.  Every `ContainerState`
carries all three top-level properties, so each property of the current
state is overwritten by the corresponding property of `stateToMerge`. -/
def mergeState (_containerState stateToMerge : ContainerState) : ContainerState :=
  { values := stateToMerge.values
    implementations := stateToMerge.implementations
    references := stateToMerge.references }

/-- Query `findImplementationTokens(baseToken, generics?)`: look up the
implementors of `baseToken.key`; keep those with a (present) `metadata`
for which every supplied generic token is itself contained (by object
identity) in the `references` index under that generic token's own key
(`containerState.references[genericKey]?.includes(genericToken) ?? false`);
without a `generics` argument the filter is `?? true`. -/
def findImplementationTokens (st : ContainerState) (baseToken : DIToken)
    (generics : Option (List DIToken)) : List DIToken :=
  match List.lookup baseToken.key st.implementations with
  | none => []
  | some implementors =>
    implementors.filter (fun token =>
      match token.metadata with
      | none => false
      | some _ =>
        match generics with
        | none => true
        | some gs =>
          gs.all (fun g =>
            match List.lookup g.key st.references with
            | none => false
            | some refs => refs.any (fun r => tokenIs r g)))

/-- Left-to-right resolution of a dependency list, threading the world;
the first failing dependency aborts the rest (JS `dependencies.map` with a
throwing callback). -/
def foldResolve (step : World → DIToken → Except DIError (Value × World))
    (deps : List DIToken) (init : Except DIError (List Value × World)) :
    Except DIError (List Value × World) :=
  deps.foldl
    (fun acc d =>
      match acc with
      | .error e => .error e
      | .ok (args, w1) =>
        match step w1 d with
        | .error e => .error e
        | .ok (v, w2) => .ok (args ++ [v], w2))
    init

/-- One level of `resolve(toResolve)` of the finalized container, with
`recur` standing for the recursive call used on the dependencies.  The self
token is special-cased first; a missing key throws `TokenNotFound`; an
entry without a `dependencies` property is returned unchanged; otherwise
the dependencies are resolved recursively in declared order and the stored
factory is invoked on the results (a missing `factory` throws a
`TypeError` at the call). -/
def resolveStep (recur : World → DIToken → Except DIError (Value × World))
    (st : ContainerState) (w : World) (t : DIToken) : Except DIError (Value × World) :=
  if tokenIs t DIContainerTok then .ok (.containerRef, w)
  else
    match List.lookup t.key st.values with
    | none => .error (.tokenNotFound t.key)
    | some (.plain v) => .ok (v, w)
    | some (.factNoDeps sc) => .ok (.objLit sc, w)
    | some (.fact deps f? _) =>
      match foldResolve recur deps (.ok ([], w)) with
      | .error e => .error e
      | .ok (args, w') =>
        match f? with
        | none => .error (.typeError "state.factory is not a function")
        | some fn => .ok (invokeFn fn args w')

/-- Function `resolve(toResolve)` of the finalized container.  `fuel` models the
remaining host call stack: each recursive dependency resolution descends
one level, and exhaustion is the stack-overflow failure. -/
def resolveF : Nat → ContainerState → World → DIToken → Except DIError (Value × World)
  | 0, _, _, _ => .error .stackOverflow
  | fuel + 1, st, w, t => resolveStep (fun w1 d => resolveF fuel st w1 d) st w t

/-- The per-scope `instances` cache of `createScope`, keyed by token key. -/
def Cache : Type := List (String × Value)

/-- Scoped dependency-list resolution, threading world and scope cache. -/
def foldScoped (step : World → Cache → DIToken → Except DIError (Value × World × Cache))
    (deps : List DIToken) (init : Except DIError (List Value × World × Cache)) :
    Except DIError (List Value × World × Cache) :=
  deps.foldl
    (fun acc d =>
      match acc with
      | .error e => .error e
      | .ok (args, w1, c1) =>
        match step w1 c1 d with
        | .error e => .error e
        | .ok (v, w2, c2) => .ok (args ++ [v], w2, c2))
    init

/-- One level of `scopedResolve` inside `createScope`, with `recur`
standing for the recursive scoped call used on the dependencies: the self
token returns a scoped container view (never cached); a token already in
`instances` returns the cached value; otherwise the token is resolved like
the outer resolver but with dependencies going through `scopedResolve`
(sharing the same `instances`), and finally the result is written into
`instances` iff the stored entry's `scope` property is `"scoped"`. -/
def scopedBody (recur : World → Cache → DIToken → Except DIError (Value × World × Cache))
    (w : World) (c : Cache) : StoredEntry → Except DIError (Value × World × Cache)
  | .plain v => .ok (v, w, c)
  | .factNoDeps sc => .ok (.objLit sc, w, c)
  | .fact deps f? _ =>
    match foldScoped recur deps (.ok ([], w, c)) with
    | .error err => .error err
    | .ok (args, w', c') =>
      match f? with
      | none => .error (.typeError "state.factory is not a function")
      | some fn =>
        match invokeFn fn args w' with
        | (v, w'') => .ok (v, w'', c')

def scopedStep (recur : World → Cache → DIToken → Except DIError (Value × World × Cache))
    (st : ContainerState) (w : World) (c : Cache) (t : DIToken) :
    Except DIError (Value × World × Cache) :=
  if tokenIs t DIContainerTok then .ok (.containerRef, w, c)
  else
    match List.lookup t.key c with
    | some v => .ok (v, w, c)
    | none =>
      match List.lookup t.key st.values with
      | none => .error (.tokenNotFound t.key)
      | some e =>
        match scopedBody recur w c e with
        | .error err => .error err
        | .ok (v, w', c') =>
          if entryScope e = some "scoped" then .ok (v, w', setKey c' t.key v)
          else .ok (v, w', c')

/-- Function `scopedResolve` of `createScope`, with `fuel` modelling the host call
stack as in `resolveF`. -/
def scopedResolveF : Nat → ContainerState → World → Cache → DIToken →
    Except DIError (Value × World × Cache)
  | 0, _, _, _, _ => .error .stackOverflow
  | fuel + 1, st, w, c, t =>
    scopedStep (fun w1 c1 d => scopedResolveF fuel st w1 c1 d) st w c t

/-- Operation `createScope(callback)` where the callback's observable behaviour is
resolving `tokens` in order through the scoped resolver: each invocation
starts from a fresh empty `instances` cache. -/
def runScope (fuel : Nat) (st : ContainerState) (w : World) (tokens : List DIToken) :
    Except DIError (List Value × World) :=
  match foldScoped (fun w1 c1 d => scopedResolveF fuel st w1 c1 d) tokens
      (.ok ([], w, ([] : Cache))) with
  | .error e => .error e
  | .ok (vs, w', _) => .ok (vs, w')

/-- Operation `resolveArray(tokens)`: resolve each token independently in order;
the first failure aborts. -/
def resolveArray (fuel : Nat) (st : ContainerState) (w : World) (tokens : List DIToken) :
    Except DIError (List Value × World) :=
  foldResolve (fun w1 d => resolveF fuel st w1 d) tokens (.ok ([], w))

/-! ### Map lemmas -/

theorem lookup_setKey_self {α : Type} (m : List (String × α)) (k : String) (v : α) :
    List.lookup k (setKey m k v) = some v := by
  induction m with
  | nil => simp [setKey, List.lookup]
  | cons p rest ih =>
    obtain ⟨k', v'⟩ := p
    by_cases h : k' = k
    · subst h; simp [setKey, List.lookup]
    · have hb : (k' == k) = false := by simp [h]
      have hb' : (k == k') = false := by
        simp only [beq_eq_false_iff_ne, ne_eq]
        exact fun hh => h hh.symm
      simp [setKey, hb, List.lookup, hb', ih]

theorem lookup_setKey_ne {α : Type} (m : List (String × α)) {k k' : String} (v : α)
    (h : k' ≠ k) : List.lookup k' (setKey m k v) = List.lookup k' m := by
  have hb0 : (k' == k) = false := by simp [h]
  induction m with
  | nil => simp [setKey, List.lookup, hb0]
  | cons p rest ih =>
    obtain ⟨k0, v0⟩ := p
    by_cases h0 : k0 = k
    · subst h0
      simp [setKey, List.lookup, hb0]
    · have hb : (k0 == k) = false := by simp [h0]
      simp [setKey, hb, List.lookup, ih]

/-! ### World preservation: the allocation counter only grows, and a
`defineSingleton` cell that is set keeps its value forever. -/

/-- Monotone evolution of the machine world. -/
def WLe (w w' : World) : Prop :=
  w.nextId ≤ w'.nextId ∧
    ∀ c u, List.lookup c w.cells = some u → List.lookup c w'.cells = some u

theorem WLe_refl (w : World) : WLe w w := ⟨le_refl _, fun _ _ h => h⟩

theorem WLe_trans {w1 w2 w3 : World} (h1 : WLe w1 w2) (h2 : WLe w2 w3) : WLe w1 w3 :=
  ⟨le_trans h1.1 h2.1, fun c u h => h2.2 c u (h1.2 c u h)⟩

theorem invokeFn_WLe (fn : FactoryFn) (args : List Value) (w : World) :
    WLe w (invokeFn fn args w).2 := by
  cases fn with
  | make fid => exact ⟨Nat.le_succ _, fun _ _ h => h⟩
  | memo cell fid =>
    simp only [invokeFn]
    cases hc : List.lookup cell w.cells with
    | some v => exact WLe_refl w
    | none =>
      refine ⟨Nat.le_succ _, fun c u h => ?_⟩
      have hne : (c == cell) = false := by
        by_cases hcc : c = cell
        · subst hcc; rw [h] at hc; exact Option.noConfusion hc
        · simp [hcc]
      simpa [List.lookup, hne] using h

theorem invokeFn_memo_hit (cell fid : Nat) (args : List Value) (w : World) (u : Value)
    (h : List.lookup cell w.cells = some u) :
    invokeFn (.memo cell fid) args w = (u, w) := by
  simp [invokeFn, h]

theorem invokeFn_memo_sets (cell fid : Nat) (args : List Value) (w : World) :
    List.lookup cell ((invokeFn (.memo cell fid) args w).2).cells =
      some (invokeFn (.memo cell fid) args w).1 := by
  simp only [invokeFn]
  cases hc : List.lookup cell w.cells with
  | some v => simpa using hc
  | none => simp [List.lookup]

/-! ### Lemmas about dependency-list folding -/

theorem foldResolve_error (step : World → DIToken → Except DIError (Value × World))
    (ds : List DIToken) (e : DIError) :
    foldResolve step ds (.error e) = .error e := by
  induction ds with
  | nil => rfl
  | cons d ds ih => simpa [foldResolve] using ih

theorem foldResolve_cons (step : World → DIToken → Except DIError (Value × World))
    (d : DIToken) (ds : List DIToken) (args : List Value) (w : World) :
    foldResolve step (d :: ds) (.ok (args, w)) =
      match step w d with
      | .error e => .error e
      | .ok (v, w2) => foldResolve step ds (.ok (args ++ [v], w2)) := by
  cases h : step w d with
  | error e =>
    simpa [foldResolve, h] using foldResolve_error step ds e
  | ok r => obtain ⟨v, w2⟩ := r; simp [foldResolve, h]

theorem foldResolve_WLe (step : World → DIToken → Except DIError (Value × World))
    (hstep : ∀ w d v w', step w d = .ok (v, w') → WLe w w') :
    ∀ (ds : List DIToken) (args : List Value) (w : World) (vs : List Value) (w' : World),
      foldResolve step ds (.ok (args, w)) = .ok (vs, w') → WLe w w' := by
  intro ds
  induction ds with
  | nil =>
    intro args w vs w' h
    simp only [foldResolve, List.foldl_nil] at h
    cases h
    exact WLe_refl w
  | cons d ds ih =>
    intro args w vs w' h
    rw [foldResolve_cons] at h
    cases hs : step w d with
    | error e => rw [hs] at h; exact absurd h (by simp)
    | ok r =>
      obtain ⟨v, w2⟩ := r
      rw [hs] at h
      exact WLe_trans (hstep w d v w2 hs) (ih _ _ _ _ h)

theorem foldResolve_ok_indep (step : World → DIToken → Except DIError (Value × World))
    (hstep : ∀ w d v w1, step w d = .ok (v, w1) → ∀ w', ∃ v' w1', step w' d = .ok (v', w1')) :
    ∀ (ds : List DIToken) (args : List Value) (w : World) (vs : List Value) (wEnd : World),
      foldResolve step ds (.ok (args, w)) = .ok (vs, wEnd) →
      ∀ (args' : List Value) (w' : World),
        ∃ vs' wEnd', foldResolve step ds (.ok (args', w')) = .ok (vs', wEnd') := by
  intro ds
  induction ds with
  | nil =>
    intro args w vs wEnd _ args' w'
    exact ⟨args', w', rfl⟩
  | cons d ds ih =>
    intro args w vs wEnd h args' w'
    rw [foldResolve_cons] at h
    cases hs : step w d with
    | error e => rw [hs] at h; exact absurd h (by simp)
    | ok r =>
      obtain ⟨v, w2⟩ := r
      rw [hs] at h
      obtain ⟨v', w2', hs'⟩ := hstep w d v w2 hs w'
      obtain ⟨vs', wEnd', h'⟩ := ih _ _ _ _ h (args' ++ [v']) w2'
      refine ⟨vs', wEnd', ?_⟩
      rw [foldResolve_cons, hs']
      exact h'

/-! ### Lemmas about the resolver -/

theorem resolveF_succ (fuel : Nat) (st : ContainerState) (w : World) (t : DIToken) :
    resolveF (fuel + 1) st w t = resolveStep (fun w1 d => resolveF fuel st w1 d) st w t := rfl


/-- Resolution only lets the world grow. -/
theorem resolveF_WLe (fuel : Nat) :
    ∀ (st : ContainerState) (w : World) (t : DIToken) (v : Value) (w' : World),
      resolveF fuel st w t = .ok (v, w') → WLe w w' := by
  induction fuel with
  | zero => intro st w t v w' h; exact absurd h (by simp [resolveF])
  | succ fuel ih =>
    intro st w t v w' h
    rw [resolveF_succ] at h
    unfold resolveStep at h
    split at h
    · cases h; exact WLe_refl w
    · split at h
      · exact absurd h (by simp)
      · cases h; exact WLe_refl w
      · cases h; exact WLe_refl w
      · rename_i deps f? sc hL
        cases hF : foldResolve (fun w1 d => resolveF fuel st w1 d) deps (.ok ([], w)) with
        | error e0 => rw [hF] at h; exact absurd h (by simp)
        | ok r =>
          obtain ⟨args, wd⟩ := r
          rw [hF] at h
          cases f? with
          | none => exact absurd h (by simp)
          | some fn =>
            simp only [Except.ok.injEq] at h
            have hwd : WLe w wd :=
              foldResolve_WLe _ (fun w1 d v1 w2 hh => ih st w1 d v1 w2 hh) deps [] w args wd hF
            have hinv : WLe wd (invokeFn fn args wd).2 := invokeFn_WLe fn args wd
            rw [h] at hinv
            exact WLe_trans hwd hinv

/-- Whether resolution succeeds depends only on state and fuel, not on the
machine world. -/
theorem resolveF_ok_indep (fuel : Nat) :
    ∀ (st : ContainerState) (w : World) (t : DIToken) (v : Value) (w1 : World),
      resolveF fuel st w t = .ok (v, w1) →
      ∀ w' : World, ∃ v' w1', resolveF fuel st w' t = .ok (v', w1') := by
  induction fuel with
  | zero => intro st w t v w1 h; exact absurd h (by simp [resolveF])
  | succ fuel ih =>
    intro st w t v w1 h w'
    rw [resolveF_succ] at h
    rw [resolveF_succ]
    unfold resolveStep at h ⊢
    split at h
    · rename_i hS
      rw [if_pos hS]
      exact ⟨_, _, rfl⟩
    · rename_i hS
      split at h
      · exact absurd h (by simp)
      · rename_i v0 hL
        rw [if_neg hS]
        exact ⟨v0, w', rfl⟩
      · rename_i sc hL
        rw [if_neg hS]
        exact ⟨.objLit sc, w', rfl⟩
      · rename_i deps f? sc hL
        cases hF : foldResolve (fun w1 d => resolveF fuel st w1 d) deps (.ok ([], w)) with
        | error e0 => rw [hF] at h; exact absurd h (by simp)
        | ok r =>
          obtain ⟨args, wd⟩ := r
          rw [hF] at h
          cases f? with
          | none => exact absurd h (by simp)
          | some fn =>
            obtain ⟨args2, wd2, hF2⟩ :=
              foldResolve_ok_indep _
                (fun wa d va wb hh w2 => ih st wa d va wb hh w2)
                deps [] w args wd hF [] w'
            rw [if_neg hS, hF2]
            exact ⟨_, _, rfl⟩

/-! ### Lemmas about the scoped resolver -/

theorem scopedResolveF_succ (fuel : Nat) (st : ContainerState) (w : World) (c : Cache)
    (t : DIToken) :
    scopedResolveF (fuel + 1) st w c t =
      scopedStep (fun w1 c1 d => scopedResolveF fuel st w1 c1 d) st w c t := rfl

/-- Growth of the per-scope `instances` cache: a key that is present keeps
its value (entries are only added for keys absent when their resolution
started, and never removed). -/
def CacheLe (c c' : Cache) : Prop :=
  ∀ k u, List.lookup k c = some u → List.lookup k c' = some u

theorem CacheLe_refl (c : Cache) : CacheLe c c := fun _ _ h => h

theorem CacheLe_trans {c1 c2 c3 : Cache} (h1 : CacheLe c1 c2) (h2 : CacheLe c2 c3) :
    CacheLe c1 c3 := fun k u h => h2 k u (h1 k u h)

theorem foldScoped_error (step : World → Cache → DIToken → Except DIError (Value × World × Cache))
    (ds : List DIToken) (e : DIError) :
    foldScoped step ds (.error e) = .error e := by
  induction ds with
  | nil => rfl
  | cons d ds ih => simpa [foldScoped] using ih

theorem foldScoped_cons (step : World → Cache → DIToken → Except DIError (Value × World × Cache))
    (d : DIToken) (ds : List DIToken) (args : List Value) (w : World) (c : Cache) :
    foldScoped step (d :: ds) (.ok (args, w, c)) =
      match step w c d with
      | .error e => .error e
      | .ok (v, w2, c2) => foldScoped step ds (.ok (args ++ [v], w2, c2)) := by
  cases h : step w c d with
  | error e =>
    simpa [foldScoped, h] using foldScoped_error step ds e
  | ok r => obtain ⟨v, w2, c2⟩ := r; simp [foldScoped, h]

theorem foldScoped_cacheLe
    (step : World → Cache → DIToken → Except DIError (Value × World × Cache))
    (hstep : ∀ w c d v w' c', step w c d = .ok (v, w', c') → CacheLe c c') :
    ∀ (ds : List DIToken) (args : List Value) (w : World) (c : Cache)
      (vs : List Value) (w' : World) (c' : Cache),
      foldScoped step ds (.ok (args, w, c)) = .ok (vs, w', c') → CacheLe c c' := by
  intro ds
  induction ds with
  | nil =>
    intro args w c vs w' c' h
    simp only [foldScoped, List.foldl_nil] at h
    cases h
    exact CacheLe_refl c
  | cons d ds ih =>
    intro args w c vs w' c' h
    rw [foldScoped_cons] at h
    cases hs : step w c d with
    | error e => rw [hs] at h; exact absurd h (by simp)
    | ok r =>
      obtain ⟨v, w2, c2⟩ := r
      rw [hs] at h
      exact CacheLe_trans (hstep w c d v w2 c2 hs) (ih _ _ _ _ _ _ h)

theorem scopedBody_cacheLe
    (step : World → Cache → DIToken → Except DIError (Value × World × Cache))
    (hstep : ∀ w c d v w' c', step w c d = .ok (v, w', c') → CacheLe c c')
    (w : World) (c : Cache) (e : StoredEntry) (v : Value) (w' : World) (c' : Cache)
    (h : scopedBody step w c e = .ok (v, w', c')) : CacheLe c c' := by
  cases e with
  | plain v0 => cases h; exact CacheLe_refl c
  | factNoDeps sc => cases h; exact CacheLe_refl c
  | fact deps f? sc =>
    simp only [scopedBody] at h
    cases hF : foldScoped step deps (.ok ([], w, c)) with
    | error e0 => rw [hF] at h; exact absurd h (by simp)
    | ok r =>
      obtain ⟨args, wd, cd⟩ := r
      rw [hF] at h
      cases f? with
      | none => exact absurd h (by simp)
      | some fn =>
        have hcd : CacheLe c cd := foldScoped_cacheLe step hstep deps [] w c args wd cd hF
        have h2 : Except.ok ((invokeFn fn args wd).1, (invokeFn fn args wd).2, cd) =
            Except.ok (v, w', c') := h
        simp only [Except.ok.injEq, Prod.mk.injEq] at h2
        rw [← h2.2.2]
        exact hcd

/-- A key present in the `instances` cache when a scoped resolution starts
still holds the same value when it finishes. -/
theorem scopedResolveF_cacheLe (fuel : Nat) :
    ∀ (st : ContainerState) (w : World) (c : Cache) (t : DIToken) (v : Value)
      (w' : World) (c' : Cache),
      scopedResolveF fuel st w c t = .ok (v, w', c') → CacheLe c c' := by
  induction fuel with
  | zero => intro st w c t v w' c' h; exact absurd h (by simp [scopedResolveF])
  | succ fuel ih =>
    intro st w c t v w' c' h
    rw [scopedResolveF_succ] at h
    unfold scopedStep at h
    split at h
    · cases h; exact CacheLe_refl c
    · split at h
      · cases h; exact CacheLe_refl c
      · rename_i hmc
        split at h
        · exact absurd h (by simp)
        · rename_i e hL
          cases hB : scopedBody (fun w1 c1 d => scopedResolveF fuel st w1 c1 d) w c e with
          | error e0 => rw [hB] at h; exact absurd h (by simp)
          | ok r =>
            obtain ⟨v0, w0, c0⟩ := r
            rw [hB] at h
            have h2 : (if entryScope e = some "scoped" then
                  Except.ok (v0, w0, setKey c0 t.key v0)
                else Except.ok (v0, w0, c0)) = Except.ok (v, w', c') := h
            have hc0 : CacheLe c c0 :=
              scopedBody_cacheLe _ (fun wa ca d va wb cb hh => ih st wa ca d va wb cb hh)
                w c e v0 w0 c0 hB
            by_cases hsc : entryScope e = some "scoped"
            · rw [if_pos hsc] at h2
              cases h2
              intro k u hk
              have hk0 : List.lookup k c0 = some u := hc0 k u hk
              have hkne : k ≠ t.key := by
                intro hkk
                rw [hkk] at hk
                rw [hk] at hmc
                exact Option.noConfusion hmc
              rw [lookup_setKey_ne c0 _ hkne]
              exact hk0
            · rw [if_neg hsc] at h2
              cases h2
              exact hc0

/-- Resolving a token whose key is already in the scope cache returns the
cached value and changes nothing. -/
theorem scopedResolveF_cache_hit (fuel : Nat) (st : ContainerState) (w : World) (c : Cache)
    (t : DIToken) (v : Value) (ht : tokenIs t DIContainerTok = false)
    (h : List.lookup t.key c = some v) :
    scopedResolveF (fuel + 1) st w c t = .ok (v, w, c) := by
  rw [scopedResolveF_succ]
  unfold scopedStep
  rw [ht]
  simp only [Bool.false_eq_true, if_false, h]

/-- A successful scoped resolution of a token whose stored entry is tagged
`"scoped"` leaves the returned value in the scope cache under the token
key. -/
theorem scopedResolveF_caches (fuel : Nat) (st : ContainerState) (w : World) (c : Cache)
    (t : DIToken) (v : Value) (w' : World) (c' : Cache) (e : StoredEntry)
    (ht : tokenIs t DIContainerTok = false)
    (hE : List.lookup t.key st.values = some e)
    (hsc : entryScope e = some "scoped")
    (h : scopedResolveF fuel st w c t = .ok (v, w', c')) :
    List.lookup t.key c' = some v := by
  cases fuel with
  | zero => exact absurd h (by simp [scopedResolveF])
  | succ fuel =>
    rw [scopedResolveF_succ] at h
    unfold scopedStep at h
    rw [ht] at h
    simp only [Bool.false_eq_true, if_false] at h
    cases hmc : List.lookup t.key c with
    | some v0 =>
      rw [hmc] at h
      cases h
      exact hmc
    | none =>
      rw [hmc, hE] at h
      have h2 : (match scopedBody (fun w1 c1 d => scopedResolveF fuel st w1 c1 d) w c e with
          | .error err => Except.error err
          | .ok (v1, w1, c1) =>
            if entryScope e = some "scoped" then Except.ok (v1, w1, setKey c1 t.key v1)
            else Except.ok (v1, w1, c1)) = Except.ok (v, w', c') := h
      cases hB : scopedBody (fun w1 c1 d => scopedResolveF fuel st w1 c1 d) w c e with
      | error e0 => rw [hB] at h2; exact absurd h2 (by simp)
      | ok r =>
        obtain ⟨v0, w0, c0⟩ := r
        rw [hB] at h2
        have h3 : (if entryScope e = some "scoped" then
              Except.ok (v0, w0, setKey c0 t.key v0)
            else Except.ok (v0, w0, c0)) = Except.ok (v, w', c') := h2
        rw [if_pos hsc] at h3
        simp only [Except.ok.injEq, Prod.mk.injEq] at h3
        obtain ⟨hv, hw, hc⟩ := h3
        rw [← hc, ← hv]
        exact lookup_setKey_self c0 t.key v0

/-! ### Concrete scenarios (mirroring the repository test suite) -/

/-- Extract the state of a successful builder step (all scenario steps
below succeed, as each theorem proves). -/
def getOk (x : Except DIError ContainerState) : ContainerState :=
  match x with
  | .ok s => s
  | .error _ => emptyState

def repoATok : DIToken := ⟨1, "RepoA", none⟩

def tokC : DIToken := ⟨2, "factoryCToken", none⟩

def tokD : DIToken := ⟨3, "factoryDToken", none⟩

def w0 : World := ⟨0, []⟩

def repositoryTok : DIToken := ⟨7, "Repository", none⟩

def userTok : DIToken := ⟨8, "User", none⟩

def productTok : DIToken := ⟨9, "Product", none⟩

/-- Token `RepositoryImplA`: implements `Repository`, generics `[User]`. -/
def implATok : DIToken := ⟨4, "RepositoryA", some ⟨some [⟨7, "Repository"⟩], some [⟨8, "User"⟩]⟩⟩

/-- Token `RepositoryImplB`: implements `Repository`, generics `[Product]`. -/
def implBTok : DIToken := ⟨5, "RepositoryB", some ⟨some [⟨7, "Repository"⟩], some [⟨9, "Product"⟩]⟩⟩

/-- A token distinct from the self token (different object identity) that
reuses the reserved key string. -/
def rogueTok : DIToken := ⟨6, "DIContainer", none⟩

/-- Both repository implementations registered with their metadata. -/
def metaState : ContainerState :=
  getOk (register (getOk (register emptyState implATok (.base 1))) implBTok (.base 2))

/-- Container A of the merge scenario: only `RepoA`. -/
def stateA : ContainerState := getOk (register emptyState repoATok (.base 10))

/-- Container C of the merge scenario: `factoryC` (depends on `RepoA`) and
`factoryD` (depends on `factoryC`), no `RepoA` of its own. -/
def stateC : ContainerState :=
  getOk (registerFactory (getOk (registerFactory emptyState tokC (.desc [repoATok] 100) none 0))
    tokD (.desc [tokC] 101) none 0)

/-- State of `merge(stateA)` then `merge(stateC)` from the empty builder. -/
def mergedAC : ContainerState := mergeState (mergeState emptyState stateA) stateC

/-- State with a `RepoA` value, a scoped `factoryC` over it, and a transient `factoryD`
depending on `factoryC`. -/
def scopedState : ContainerState :=
  getOk (registerFactory
    (getOk (registerFactory (getOk (register emptyState repoATok (.base 10)))
      tokC (.desc [repoATok] 100) (some "scoped") 0))
    tokD (.desc [tokC] 101) none 0)

/-- State with a `RepoA` value and a singleton `factoryC` over it (memo cell 77). -/
def singletonState : ContainerState :=
  getOk (registerFactory (getOk (register emptyState repoATok (.base 10)))
    tokC (.desc [repoATok] 100) (some "singleton") 77)

/-- Two factories depending on each other. -/
def cycleState : ContainerState :=
  getOk (registerFactory (getOk (registerFactory emptyState tokC (.desc [tokD] 100) none 0))
    tokD (.desc [tokC] 101) none 0)

/-- A factory whose only dependency `RepoA` was never registered. -/
def missState : ContainerState :=
  getOk (registerFactory emptyState tokC (.desc [repoATok] 100) none 0)

def tok11 : DIToken := ⟨11, "Service", none⟩

def tok12 : DIToken := ⟨12, "Service", none⟩

/-! ### Claim theorems -/

/-- C7.  Round-trip: registering a plain value under a non-self token and
resolving that token returns exactly the registered value, unchanged
(and the untouched world witnesses that nothing was allocated). -/
theorem register_resolve_roundtrip (st : ContainerState) (t : DIToken) (v : Value)
    (fuel : Nat) (w : World) (ht : tokenIs t DIContainerTok = false) :
    ∃ st', register st t v = .ok st' ∧ resolveF (fuel + 1) st' w t = .ok (v, w) := by
  have hreg : register st t v =
      .ok ⟨setKey st.values t.key (.plain v), applyImplements st.implementations t,
        applyGenerics st.references t⟩ := by
    unfold register
    rw [ht]
    simp
  refine ⟨_, hreg, ?_⟩
  rw [resolveF_succ]
  unfold resolveStep
  rw [ht]
  simp only [Bool.false_eq_true, if_false]
  rw [lookup_setKey_self]

theorem register_resolve_roundtrip_witness :
    ∃ st', register emptyState repoATok (.base 10) = .ok st' ∧
      resolveF 3 st' w0 repoATok = .ok (.base 10, w0) :=
  register_resolve_roundtrip emptyState repoATok (.base 10) 2 w0 rfl

/-- C10.  Registration slots are keyed by the token key string, not by
token object identity: a value registered through one token object is
resolved through any same-keyed token object, and a later registration
through a second same-keyed object overwrites the slot for both. -/
theorem string_keyed_slots (st : ContainerState) (t1 t2 : DIToken) (v u : Value)
    (fuel : Nat) (w : World)
    (h1 : tokenIs t1 DIContainerTok = false) (h2 : tokenIs t2 DIContainerTok = false)
    (hk : t1.key = t2.key) :
    ∃ st1 st2,
      register st t1 v = .ok st1 ∧
      resolveF (fuel + 1) st1 w t2 = .ok (v, w) ∧
      register st1 t2 u = .ok st2 ∧
      resolveF (fuel + 1) st2 w t2 = .ok (u, w) ∧
      resolveF (fuel + 1) st2 w t1 = .ok (u, w) := by
  have hreg1 : register st t1 v =
      .ok ⟨setKey st.values t1.key (.plain v), applyImplements st.implementations t1,
        applyGenerics st.references t1⟩ := by
    unfold register
    rw [h1]
    simp
  refine ⟨⟨setKey st.values t1.key (.plain v), applyImplements st.implementations t1,
      applyGenerics st.references t1⟩,
    ⟨setKey (setKey st.values t1.key (.plain v)) t2.key (.plain u),
      applyImplements (applyImplements st.implementations t1) t2,
      applyGenerics (applyGenerics st.references t1) t2⟩, hreg1, ?_, ?_, ?_, ?_⟩
  · rw [resolveF_succ]
    unfold resolveStep
    rw [h2]
    simp only [Bool.false_eq_true, if_false]
    rw [← hk, lookup_setKey_self]
  · unfold register
    rw [h2]
    simp
  · rw [resolveF_succ]
    unfold resolveStep
    rw [h2]
    simp only [Bool.false_eq_true, if_false]
    rw [lookup_setKey_self]
  · rw [resolveF_succ]
    unfold resolveStep
    rw [h1]
    simp only [Bool.false_eq_true, if_false]
    rw [hk, lookup_setKey_self]

theorem string_keyed_slots_witness :
    ∃ st1 st2,
      register emptyState tok11 (.base 1) = .ok st1 ∧
      resolveF 2 st1 w0 tok12 = .ok (.base 1, w0) ∧
      register st1 tok12 (.base 2) = .ok st2 ∧
      resolveF 2 st2 w0 tok12 = .ok (.base 2, w0) ∧
      resolveF 2 st2 w0 tok11 = .ok (.base 2, w0) :=
  string_keyed_slots emptyState tok11 tok12 (.base 1) (.base 2) 1 w0 rfl rfl rfl

/-- C4 counterexample.  The self-token guard compares object identity, so a
distinct token object carrying the reserved key "DIContainer" registers
without error and places the reserved key into `values`, and the resulting
state is reachable from the empty builder by one `register` call. -/
theorem reserved_key_reachable_in_values :
    register emptyState rogueTok (.base 1) =
      .ok ⟨[("DIContainer", .plain (.base 1))], [], []⟩ ∧
    List.lookup DIContainerTok.key
      (getOk (register emptyState rogueTok (.base 1))).values = some (.plain (.base 1)) :=
  ⟨rfl, rfl⟩

/-- C4 amended.  The guard holds for the self token object itself: any
`register` call with the very Self Token fails with `ReservedTokenError`
(returning no new state), and so does any `registerFactory` call whose
payload passes the object-type validation. -/
theorem register_self_token_fails :
    (∀ (st : ContainerState) (v : Value),
      register st DIContainerTok v = .error .reservedToken) ∧
    (∀ (st : ContainerState) (input : FactoryInput) (scope : Option String) (cell : Nat),
      input.typeofIsObject = true →
      registerFactory st DIContainerTok input scope cell = .error .reservedToken) ∧
    errMessage .reservedToken = "DIContainer cannot be registered" := by
  refine ⟨fun st v => rfl, fun st input scope cell h => ?_, rfl⟩
  unfold registerFactory
  rw [h]
  simp [tokenIs, DIContainerTok]

theorem register_self_token_fails_witness :
    registerFactory emptyState DIContainerTok (.desc [] 5) none 0 = .error .reservedToken :=
  register_self_token_fails.2.1 emptyState (.desc [] 5) none 0 rfl

/-- C8 counterexample.  A descriptor object that has a `dependencies`
array but no `factory` function is accepted by `registerFactory` (the only
validation is `typeof value === "object"`), while the claim requires an
`InvalidFactoryError`. -/
theorem registerFactory_missing_factory_accepted :
    registerFactory emptyState tokC (.objMalformed (some [])) none 0 =
      .ok ⟨[("factoryCToken", .fact [] none none)], [], []⟩ := rfl

/-- C8 amended.  `registerFactory` fails with `InvalidFactoryError` exactly
when the payload is not of JS object type (`typeof value !== "object"`);
every object-typed payload — including one missing `factory`, and `null`
itself — passes this validation, and registration then succeeds except for
`null` with scope `"singleton"`, which fails with a `TypeError` while
wrapping the missing factory. -/
theorem invalidFactory_iff_nonObject (st : ContainerState) (t : DIToken)
    (input : FactoryInput) (scope : Option String) (cell : Nat)
    (ht : tokenIs t DIContainerTok = false) :
    ((∃ m, registerFactory st t input scope cell = .error (.invalidFactory m)) ↔
      input.typeofIsObject = false) ∧
    (input.typeofIsObject = true → input.isNullSingleton scope = false →
      ∃ st', registerFactory st t input scope cell = .ok st') ∧
    (input.isNullSingleton scope = true →
      registerFactory st t input scope cell =
        .error (.typeError "Cannot read properties of null (reading factory)")) := by
  constructor
  · constructor
    · rintro ⟨m, hm⟩
      cases hobj : input.typeofIsObject with
      | false => rfl
      | true =>
        exfalso
        unfold registerFactory at hm
        rw [hobj] at hm
        rw [ht] at hm
        simp only [Bool.true_eq_false, if_false, Bool.false_eq_true] at hm
        cases hns : input.isNullSingleton scope with
        | true => rw [hns] at hm; simp at hm
        | false => rw [hns] at hm; simp at hm
    · intro hobj
      refine ⟨input.reprStr, ?_⟩
      unfold registerFactory
      rw [hobj]
      simp
  constructor
  · intro hobj hns
    refine ⟨⟨setKey st.values t.key (entryFor input scope cell),
      applyImplements st.implementations t, applyGenerics st.references t⟩, ?_⟩
    unfold registerFactory
    rw [hobj, ht, hns]
    simp
  · intro hns
    have hobj : input.typeofIsObject = true := by
      cases input with
      | nullVal => rfl
      | desc deps fid => rfl
      | objMalformed deps => rfl
      | nonObject s =>
        exfalso
        cases scope with
        | none => exact Bool.noConfusion hns
        | some s2 => exact Bool.noConfusion hns
    unfold registerFactory
    rw [hobj, ht, hns]
    simp

theorem invalidFactory_iff_nonObject_witness :
    ((∃ m, registerFactory emptyState tokC (.desc [] 9) none 0 = .error (.invalidFactory m)) ↔
      FactoryInput.typeofIsObject (.desc [] 9) = false) ∧
    (FactoryInput.typeofIsObject (.desc [] 9) = true →
      FactoryInput.isNullSingleton (.desc [] 9) none = false →
      ∃ st', registerFactory emptyState tokC (.desc [] 9) none 0 = .ok st') ∧
    (FactoryInput.isNullSingleton (.desc [] 9) none = true →
      registerFactory emptyState tokC (.desc [] 9) none 0 =
        .error (.typeError "Cannot read properties of null (reading factory)")) :=
  invalidFactory_iff_nonObject emptyState tokC (.desc [] 9) none 0 rfl

/-- C1 (code bug).  `merge` spreads at the top level of the state object,
so each of `values` / `implementations` / `references` is replaced
wholesale by the merged state: an entry present only in the left state
(`RepoA` of `stateA`) is lost, and resolving `factoryD` on the merged
container fails with `TokenNotFound "RepoA"` although every entry was
registered in one of the merged states. -/
theorem merge_drops_left_entries :
    register emptyState repoATok (.base 10) = .ok stateA ∧
    resolveF 2 stateA w0 repoATok = .ok (.base 10, w0) ∧
    mergedAC = stateC ∧
    List.lookup repoATok.key mergedAC.values = none ∧
    resolveF 5 mergedAC w0 tokD = .error (.tokenNotFound "RepoA") ∧
    resolveF 5 mergedAC w0 repoATok = .error (.tokenNotFound "RepoA") :=
  ⟨rfl, rfl, rfl, rfl, rfl, rfl⟩

/-- C2 (code bug).  The generics filter of `findImplementationTokens`
tests whether the supplied generic token itself is an element of
`references[genericKey]`; that list holds the implementing tokens, never
the generic token, so the filtered lookup returns the empty sequence
instead of narrowing to the matching implementor `RepositoryB`. -/
theorem findImplementationTokens_filter_empty :
    register (getOk (register emptyState implATok (.base 1))) implBTok (.base 2) =
      .ok metaState ∧
    findImplementationTokens metaState repositoryTok none = [implATok, implBTok] ∧
    List.lookup productTok.key metaState.references = some [implBTok] ∧
    findImplementationTokens metaState repositoryTok (some [productTok]) = [] ∧
    findImplementationTokens metaState repositoryTok (some [userTok]) = [] :=
  ⟨rfl, rfl, rfl, rfl, rfl⟩

/-- Helper: the factory branch of `resolveStep` propagates a failing
dependency fold. -/
theorem factBranch_fold_error (f? : Option FactoryFn)
    (x : Except DIError (List Value × World)) (e : DIError) (hx : x = .error e) :
    (match x with
      | .error e0 => Except.error e0
      | .ok (args, w') =>
        match f? with
        | none => Except.error (DIError.typeError "state.factory is not a function")
        | some fn => Except.ok (invokeFn fn args w')) = Except.error e := by
  rw [hx]

/-- C5.  Registering a factory never validates its dependencies, and the
failure happens at resolve time: resolving the factory token recurses into
the missing dependency and throws `TokenNotFound` naming the dependency
key, exactly as resolving any never-registered token names that token's
key; the message interpolates the key. -/
theorem missing_dependency_fails_at_resolve :
    (∀ (st : ContainerState) (t : DIToken) (deps : List DIToken) (fid : Nat)
      (scope : Option String) (cell : Nat), tokenIs t DIContainerTok = false →
      FactoryInput.isNullSingleton (.desc deps fid) scope = false →
      ∃ st', registerFactory st t (.desc deps fid) scope cell = .ok st') ∧
    (∀ (st : ContainerState) (t d : DIToken) (f? : Option FactoryFn) (sc : Option String)
      (fuel : Nat) (w : World),
      tokenIs t DIContainerTok = false → tokenIs d DIContainerTok = false →
      List.lookup t.key st.values = some (.fact [d] f? sc) →
      List.lookup d.key st.values = none →
      resolveF (fuel + 2) st w t = .error (.tokenNotFound d.key)) ∧
    (∀ (st : ContainerState) (u : DIToken) (fuel : Nat) (w : World),
      tokenIs u DIContainerTok = false → List.lookup u.key st.values = none →
      resolveF (fuel + 1) st w u = .error (.tokenNotFound u.key)) ∧
    (∀ key : String, errMessage (.tokenNotFound key) =
      "Could not Resolve: Token \"" ++ key ++ "\" not found") := by
  have hsolo : ∀ (st : ContainerState) (u : DIToken) (fuel : Nat) (w : World),
      tokenIs u DIContainerTok = false → List.lookup u.key st.values = none →
      resolveF (fuel + 1) st w u = .error (.tokenNotFound u.key) := by
    intro st u fuel w hu hmiss
    rw [resolveF_succ]
    unfold resolveStep
    rw [hu]
    simp only [Bool.false_eq_true, if_false]
    rw [hmiss]
  refine ⟨?_, ?_, hsolo, fun key => rfl⟩
  · intro st t deps fid scope cell ht hns
    refine ⟨⟨setKey st.values t.key (entryFor (.desc deps fid) scope cell),
      applyImplements st.implementations t, applyGenerics st.references t⟩, ?_⟩
    unfold registerFactory
    rw [ht, hns]
    simp [FactoryInput.typeofIsObject]
  · intro st t d f? sc fuel w ht hd hE hmiss
    rw [resolveF_succ]
    unfold resolveStep
    rw [ht]
    simp only [Bool.false_eq_true, if_false]
    rw [hE]
    have hfold : foldResolve (fun w1 dd => resolveF (fuel + 1) st w1 dd) [d] (.ok ([], w)) =
        .error (.tokenNotFound d.key) := by
      rw [foldResolve_cons, hsolo st d fuel w hd hmiss]
    exact factBranch_fold_error f? _ _ hfold

theorem missing_dependency_fails_at_resolve_witness :
    resolveF 5 missState w0 tokC = .error (.tokenNotFound "RepoA") :=
  missing_dependency_fails_at_resolve.2.1 missState tokC repoATok (some (.make 100)) none 3 w0
    rfl rfl rfl rfl

/-- C9.  Two factories that list each other as dependency can never be
resolved: whatever the stack budget, resolution of either token descends
through the other forever and surfaces the stack-limit failure (no value,
and no dedicated circular-dependency error). -/
theorem circular_dependency_never_resolves (st : ContainerState) (tA tB : DIToken)
    (fA fB : Option FactoryFn) (sA sB : Option String)
    (hA : List.lookup tA.key st.values = some (.fact [tB] fA sA))
    (hB : List.lookup tB.key st.values = some (.fact [tA] fB sB))
    (htA : tokenIs tA DIContainerTok = false) (htB : tokenIs tB DIContainerTok = false) :
    ∀ (fuel : Nat) (w : World),
      resolveF fuel st w tA = .error .stackOverflow ∧
      resolveF fuel st w tB = .error .stackOverflow := by
  intro fuel
  induction fuel with
  | zero => intro w; exact ⟨rfl, rfl⟩
  | succ fuel ih =>
    intro w
    constructor
    · rw [resolveF_succ]
      unfold resolveStep
      rw [htA]
      simp only [Bool.false_eq_true, if_false]
      rw [hA]
      have hfold : foldResolve (fun w1 dd => resolveF fuel st w1 dd) [tB] (.ok ([], w)) =
          .error .stackOverflow := by
        rw [foldResolve_cons, (ih w).2]
      exact factBranch_fold_error fA _ _ hfold
    · rw [resolveF_succ]
      unfold resolveStep
      rw [htB]
      simp only [Bool.false_eq_true, if_false]
      rw [hB]
      have hfold : foldResolve (fun w1 dd => resolveF fuel st w1 dd) [tA] (.ok ([], w)) =
          .error .stackOverflow := by
        rw [foldResolve_cons, (ih w).1]
      exact factBranch_fold_error fB _ _ hfold

theorem circular_dependency_never_resolves_witness :
    resolveF 50 cycleState w0 tokC = .error .stackOverflow ∧
    resolveF 50 cycleState w0 tokD = .error .stackOverflow :=
  circular_dependency_never_resolves cycleState tokC tokD (some (.make 100)) (some (.make 101))
    none none rfl rfl rfl rfl 50 w0

/-- C6.  A factory registered with scope `"singleton"` is stored wrapped in
the `defineSingleton` memoizer: after a successful resolution the closure
cell holds the returned value; the wrapper itself is first-call-wins
(a set cell short-circuits any further invocation); and resolving the same
token again on the same container returns the identical value. -/
theorem singleton_memoized_resolution (fuel : Nat) (st : ContainerState) (w : World)
    (t : DIToken) (deps : List DIToken) (cell fid : Nat) (v : Value) (w1 : World)
    (ht : tokenIs t DIContainerTok = false)
    (hE : List.lookup t.key st.values =
      some (.fact deps (some (.memo cell fid)) (some "singleton")))
    (h1 : resolveF fuel st w t = .ok (v, w1)) :
    List.lookup cell w1.cells = some v ∧
    (∀ (args : List Value) (w2 : World) (u : Value), List.lookup cell w2.cells = some u →
      invokeFn (.memo cell fid) args w2 = (u, w2)) ∧
    ∃ w2, resolveF fuel st w1 t = .ok (v, w2) := by
  cases fuel with
  | zero => exact absurd h1 (by simp [resolveF])
  | succ fuel =>
    rw [resolveF_succ] at h1
    unfold resolveStep at h1
    rw [ht] at h1
    simp only [Bool.false_eq_true, if_false] at h1
    rw [hE] at h1
    have h2 : (match foldResolve (fun wa d => resolveF fuel st wa d) deps (.ok ([], w)) with
        | Except.error e => Except.error e
        | Except.ok (args, w') => Except.ok (invokeFn (.memo cell fid) args w')) =
        Except.ok (v, w1) := h1
    cases hF : foldResolve (fun wa d => resolveF fuel st wa d) deps (.ok ([], w)) with
    | error e0 => rw [hF] at h2; exact absurd h2 (by simp)
    | ok r =>
      obtain ⟨args, wd⟩ := r
      rw [hF] at h2
      simp only [Except.ok.injEq] at h2
      have hcell : List.lookup cell w1.cells = some v := by
        have hset := invokeFn_memo_sets cell fid args wd
        rw [h2] at hset
        exact hset
      refine ⟨hcell, fun args2 w2 u hu => invokeFn_memo_hit cell fid args2 w2 u hu, ?_⟩
      obtain ⟨args2, wd2, hF2⟩ :=
        foldResolve_ok_indep _
          (fun wa d va wb hh w2 => resolveF_ok_indep fuel st wa d va wb hh w2)
          deps [] w args wd hF [] w1
      have hcell2 : List.lookup cell wd2.cells = some v := by
        have hle : WLe w1 wd2 :=
          foldResolve_WLe _ (fun wa d va wb hh => resolveF_WLe fuel st wa d va wb hh)
            deps [] w1 args2 wd2 hF2
        exact hle.2 cell v hcell
      refine ⟨wd2, ?_⟩
      rw [resolveF_succ]
      unfold resolveStep
      rw [ht]
      simp only [Bool.false_eq_true, if_false]
      rw [hE]
      have hstep2 : invokeFn (.memo cell fid) args2 wd2 = (v, wd2) :=
        invokeFn_memo_hit cell fid args2 wd2 v hcell2
      have hgoal : (match foldResolve (fun wa d => resolveF fuel st wa d) deps (.ok ([], w1)) with
          | Except.error e => Except.error e
          | Except.ok (args3, w3) => Except.ok (invokeFn (.memo cell fid) args3 w3)) =
          Except.ok (v, wd2) := by
        rw [hF2]
        exact congrArg Except.ok hstep2
      exact hgoal

theorem singleton_memoized_resolution_witness :
    ∃ w2, resolveF 5 singletonState ⟨1, [(77, Value.obj 0 100 [.base 10])]⟩ tokC =
      .ok (.obj 0 100 [.base 10], w2) :=
  (singleton_memoized_resolution 5 singletonState w0 tokC [repoATok] 77 100
    (.obj 0 100 [.base 10]) ⟨1, [(77, Value.obj 0 100 [.base 10])]⟩ rfl rfl rfl).2.2

/-- C3.  Scoped factories are resolved at most once per scope: a cache hit
returns the cached value untouched; a successful resolution of a token
whose entry is tagged `"scoped"` leaves its value in the scope cache; a
cache entry survives any further resolution in the same scope (so sibling
factories observe the same instance).  Concretely, in a scope resolving
`factoryD` (which depends on scoped `factoryC`) and then `factoryC` twice,
`factoryC`'s body allocates exactly once (final allocation counter 2: one
object for C, one for D) and all three resolutions observe the same
object `obj 0`, while a second `createScope` run allocates a fresh
`obj 2` that is not reference-equal to `obj 0`. -/
theorem scoped_cached_per_scope :
    (∀ (fuel : Nat) (st : ContainerState) (w : World) (c : Cache) (t : DIToken) (v : Value),
      tokenIs t DIContainerTok = false → List.lookup t.key c = some v →
      scopedResolveF (fuel + 1) st w c t = .ok (v, w, c)) ∧
    (∀ (fuel : Nat) (st : ContainerState) (w : World) (c : Cache) (t : DIToken)
      (v : Value) (w' : World) (c' : Cache) (e : StoredEntry),
      tokenIs t DIContainerTok = false → List.lookup t.key st.values = some e →
      entryScope e = some "scoped" →
      scopedResolveF fuel st w c t = .ok (v, w', c') →
      List.lookup t.key c' = some v) ∧
    (∀ (fuel : Nat) (st : ContainerState) (w : World) (c : Cache) (t : DIToken)
      (v : Value) (w' : World) (c' : Cache),
      scopedResolveF fuel st w c t = .ok (v, w', c') → CacheLe c c') ∧
    runScope 10 scopedState w0 [tokD, tokC, tokC] =
      .ok ([.obj 1 101 [.obj 0 100 [.base 10]], .obj 0 100 [.base 10], .obj 0 100 [.base 10]],
        ⟨2, []⟩) ∧
    runScope 10 scopedState ⟨2, []⟩ [tokC] = .ok ([.obj 2 100 [.base 10]], ⟨3, []⟩) ∧
    Value.obj 2 100 [.base 10] ≠ Value.obj 0 100 [.base 10] := by
  refine ⟨?_, ?_, ?_, rfl, rfl, ?_⟩
  · intro fuel st w c t v ht hc
    exact scopedResolveF_cache_hit fuel st w c t v ht hc
  · intro fuel st w c t v w' c' e ht hE hsc h
    exact scopedResolveF_caches fuel st w c t v w' c' e ht hE hsc h
  · intro fuel st w c t v w' c' h
    exact scopedResolveF_cacheLe fuel st w c t v w' c' h
  · intro h
    injection h with h1 h2 h3
    exact absurd h1 (by decide)

theorem scoped_cached_per_scope_witness :
    scopedResolveF 5 scopedState w0 [("factoryCToken", Value.base 7)] tokC =
      .ok (.base 7, w0, [("factoryCToken", Value.base 7)]) :=
  scoped_cached_per_scope.1 4 scopedState w0 [("factoryCToken", Value.base 7)] tokC
    (.base 7) rfl rfl

end Fioc
